import Mathlib

/-!
# Verification of the expo-android UI-parsing / device-resolution core

Shallow embedding of the repository's `ui-parser.ts` (XML entity decoder,
UI dump parser, element matcher), the stabilization retry policy of
`tools/android.ts`, and the device-serial resolution state machine of
`adb.ts`.  JavaScript strings are modelled as `List Char`; the regex
scanners are modelled as explicit left-to-right scanners (fuel-indexed
structural recursion, with the fuel instantiated at the string length,
which is always sufficient since every step consumes at least one
character).  JavaScript numbers are modelled as exact integers.
-/

namespace ExpoAndroid

/-- JavaScript strings, modelled as lists of characters. -/
abbrev Str := List Char

/-- Coerce a Lean string literal to the `Str` model. -/
def str (s : String) : Str := s.data

/-- Model of JavaScript `String.prototype.toLowerCase` (per-character fold). -/
def lowerStr (s : Str) : Str := s.map Char.toLower

/-- Model of JavaScript `value.includes(sub)`: `sub` occurs contiguously
in `value`. -/
def strIncludes (sub : Str) : Str → Bool
  | [] => sub.isEmpty
  | c :: rest => sub.isPrefixOf (c :: rest) || strIncludes sub rest

/-- Whitespace test used to model the JS `\s` class and `String.prototype.trim`. -/
def isWs (c : Char) : Bool := c.isWhitespace

/-- Model of `String.prototype.trim`: strip whitespace from both ends. -/
def trimStr (s : Str) : Str := ((s.dropWhile isWs).reverse.dropWhile isWs).reverse

/-- Auxiliary scanner for `value.replace(/\s+/g, ' ')`: the flag records
whether the previous character was part of a whitespace run (in which case
further whitespace of the same run is dropped). -/
def collapseWsAux : Bool → Str → Str
  | _, [] => []
  | prevWs, c :: rest =>
    if isWs c then
      if prevWs then collapseWsAux true rest
      else ' ' :: collapseWsAux true rest
    else c :: collapseWsAux false rest

/-- Model of `value.replace(/\s+/g, ' ')`: every maximal whitespace run
becomes a single space. -/
def collapseWs (s : Str) : Str := collapseWsAux false s

/-- Decimal value of a digit string, `s.foldl` as in `Number.parseInt(s, 10)`
restricted to all-digit inputs. -/
def decVal (s : Str) : Nat := s.foldl (fun a c => 10 * a + (c.toNat - 48)) 0

/-- Hex digit test for the `[0-9a-fA-F]` class. -/
def isHexDigitChar (c : Char) : Bool :=
  c.isDigit || ('a' ≤ c && c ≤ 'f') || ('A' ≤ c && c ≤ 'F')

/-- Value of one hex digit. -/
def hexDigitVal (c : Char) : Nat :=
  if c.isDigit then c.toNat - 48
  else if 'a' ≤ c && c ≤ 'f' then c.toNat - 87
  else c.toNat - 55

/-- Hex value of a hex-digit string, as in `Number.parseInt(s, 16)`. -/
def hexVal (s : Str) : Nat := s.foldl (fun a c => 16 * a + hexDigitVal c) 0

/-- Model of `String.fromCharCode`: the argument is truncated to a UTF-16
code unit. -/
def fromCharCode (n : Nat) : Char := Char.ofNat (n % 65536)

/-! ## XML entity decoder (`decodeXml` in `ui-parser.ts`)

`value.replace(/&(#x[0-9a-fA-F]+|#\d+|quot|amp|lt|gt|apos);/g, ...)` is
modelled as a left-to-right scan.  At a position holding `'&'`,
`tryEntity` attempts the (ordered, deterministic) alternation on the
remainder and on success returns the replacement together with the number
of characters of the remainder consumed by the match. -/

/-- The `#\d+` alternative: a maximal nonempty digit run directly after
the `'#'`, followed by `';'`.  Returns the replacement and the number of
characters consumed from the entity body (including `'#'` and `';'`). -/
def decAttempt (tl : Str) : Option (Str × Nat) :=
  let run := tl.takeWhile Char.isDigit
  if run.isEmpty then none
  else
    match tl.drop run.length with
    | ';' :: _ => some ([fromCharCode (decVal run)], 1 + run.length + 1)
    | _ => none

/-- The `#x[0-9a-fA-F]+` alternative: a maximal nonempty hex-digit run
directly after `"#x"`, followed by `';'`. -/
def hexAttempt (tl : Str) : Option (Str × Nat) :=
  let run := tl.takeWhile isHexDigitChar
  if run.isEmpty then none
  else
    match tl.drop run.length with
    | ';' :: _ => some ([fromCharCode (hexVal run)], 2 + run.length + 1)
    | _ => none

/-- Attempt the entity body at the current position (the characters after
`'&'`).  Returns the replacement string and the number of characters
consumed (including the closing `';'`).  The alternation is ordered as in
the regex; after a failed `#x` attempt the `#\d+` alternative can never
succeed (its first character would be `'x'`), so the arms are disjoint. -/
def tryEntity (rest : Str) : Option (Str × Nat) :=
  match rest with
  | '#' :: c :: tl => if c = 'x' then hexAttempt tl else decAttempt (c :: tl)
  | '#' :: [] => none
  | _ =>
    if (str "quot;").isPrefixOf rest then some ([('"' : Char)], 5)
    else if (str "amp;").isPrefixOf rest then some ([('&' : Char)], 4)
    else if (str "lt;").isPrefixOf rest then some ([('<' : Char)], 3)
    else if (str "gt;").isPrefixOf rest then some ([('>' : Char)], 3)
    else if (str "apos;").isPrefixOf rest then some ([('\'' : Char)], 5)
    else none

/-- Fuel-indexed scanner for `decodeXml`; each step consumes at least one
character, so fuel equal to the string length is always sufficient. -/
def decodeXmlFuel : Nat → Str → Str
  | 0, s => s
  | _ + 1, [] => []
  | fuel + 1, c :: rest =>
    if c = '&' then
      match tryEntity rest with
      | some (repl, k) => repl ++ decodeXmlFuel fuel (rest.drop k)
      | none => c :: decodeXmlFuel fuel rest
    else c :: decodeXmlFuel fuel rest

/-- `decodeXml` from `ui-parser.ts`. -/
def decodeXml (s : Str) : Str := decodeXmlFuel s.length s

/-! ## Attribute extraction (`parseAttributes` in `ui-parser.ts`)

`/([a-zA-Z0-9_:-]+)="([^"]*)"/g` over the tag text: at each position a
match is attempted (maximal key run, then `="`, then a quote-free value,
then `"`); on failure the scan advances one character, exactly as the
regex engine retries at the next start position. -/

/-- Character class `[a-zA-Z0-9_:-]` for attribute keys. -/
def isKeyChar (c : Char) : Bool := c.isAlphanum || c = '_' || c = ':' || c = '-'

/-- Attempt a `key="value"` match starting at character `c` (followed by
`rest`).  On success returns the pair and the number of characters of
`rest` consumed by the match. -/
def tryAttrAt (c : Char) (rest : Str) : Option ((Str × Str) × Nat) :=
  if isKeyChar c then
    let keyTail := rest.takeWhile isKeyChar
    match rest.drop keyTail.length with
    | '=' :: '"' :: tl =>
      let value := tl.takeWhile (fun d => d ≠ '"')
      match tl.drop value.length with
      | '"' :: _ => some ((c :: keyTail, value), keyTail.length + 2 + value.length + 1)
      | _ => none
    | _ => none
  else none

/-- Fuel-indexed scanner collecting all `key="value"` matches in order. -/
def attrScanFuel : Nat → Str → List (Str × Str)
  | 0, _ => []
  | _ + 1, [] => []
  | fuel + 1, c :: rest =>
    match tryAttrAt c rest with
    | some (kv, k) => kv :: attrScanFuel fuel (rest.drop k)
    | none => attrScanFuel fuel rest

/-- All raw `key="value"` matches of a tag, in match order. -/
def attrScan (s : Str) : List (Str × Str) := attrScanFuel s.length s

/-- `parseAttributes` from `ui-parser.ts`: every value is entity-decoded. -/
def parseAttributes (tag : Str) : List (Str × Str) :=
  (attrScan tag).map (fun kv => (kv.1, decodeXml kv.2))

/-- Dictionary lookup modelling `attrs[key]` after the assignment loop:
the last match for a key wins. -/
def getAttr (attrs : List (Str × Str)) (key : Str) : Option Str :=
  (attrs.reverse.find? (fun kv => kv.1 == key)).map (·.2)

/-! ## Node-tag scanner (`parseUIElements`' `/<node\b[^>]*>/g`) -/

/-- Attempt a `<node\b[^>]*>` match starting at character `c` (followed by
`rest`).  On success returns the whole matched tag and the number of
characters of `rest` consumed.  The `\b` requires the character after
`"<node"` not to be a word character (`[A-Za-z0-9_]`). -/
def tryNodeAt (c : Char) (rest : Str) : Option (Str × Nat) :=
  if c = '<' && (str "node").isPrefixOf rest then
    let after := rest.drop 4
    let boundaryOk :=
      match after with
      | [] => true
      | d :: _ => !(d.isAlphanum || d = '_')
    if boundaryOk then
      let mid := after.takeWhile (fun d => d ≠ '>')
      match after.drop mid.length with
      | '>' :: _ => some (str "<node" ++ mid ++ [('>' : Char)], 4 + mid.length + 1)
      | _ => none
    else none
  else none

/-- Fuel-indexed scanner collecting all node tags in document order. -/
def nodeTagsFuel : Nat → Str → List Str
  | 0, _ => []
  | _ + 1, [] => []
  | fuel + 1, c :: rest =>
    match tryNodeAt c rest with
    | some (tag, k) => tag :: nodeTagsFuel fuel (rest.drop k)
    | none => nodeTagsFuel fuel rest

/-- All `<node\b[^>]*>` matches of a dump, in document order. -/
def findNodeTags (xml : Str) : List Str := nodeTagsFuel xml.length xml

/-! ## Bounds parsing (`parseBounds`, `centerFromBounds`) -/

/-- The parsed rectangle (`Bounds` in `ui-parser.ts`). -/
structure Bounds where
  x1 : Int
  y1 : Int
  x2 : Int
  y2 : Int
deriving DecidableEq, Repr

/-- The derived midpoint (`Center` in `ui-parser.ts`). -/
structure Center where
  x : Int
  y : Int
deriving DecidableEq, Repr

/-- Parse `-?\d+` at the current position: optional minus sign, then a
maximal nonempty digit run.  Returns the value and the number of
characters consumed. -/
def parseSigned (s : Str) : Option (Int × Nat) :=
  match s with
  | '-' :: tl =>
    let run := tl.takeWhile Char.isDigit
    if run.isEmpty then none else some (-(decVal run : Int), 1 + run.length)
  | _ =>
    let run := s.takeWhile Char.isDigit
    if run.isEmpty then none else some ((decVal run : Int), run.length)

/-- Expect one literal character; on success return the remainder. -/
def expectChar (c : Char) : Str → Option Str
  | d :: rest => if d = c then some rest else none
  | [] => none

/-- Attempt `\[(-?\d+),(-?\d+)\]\[(-?\d+),(-?\d+)\]` at the current
position: the four signed integers in sequence, separated by the literal
brackets and commas. -/
def tryBoundsAt (s : Str) : Option Bounds :=
  (expectChar '[' s).bind fun r1 =>
  (parseSigned r1).bind fun (a, k1) =>
  (expectChar ',' (r1.drop k1)).bind fun r2 =>
  (parseSigned r2).bind fun (b, k2) =>
  (expectChar ']' (r2.drop k2)).bind fun r2x =>
  (expectChar '[' r2x).bind fun r3 =>
  (parseSigned r3).bind fun (c, k3) =>
  (expectChar ',' (r3.drop k3)).bind fun r4 =>
  (parseSigned r4).bind fun (d, k4) =>
  (expectChar ']' (r4.drop k4)).map fun _ => (⟨a, b, c, d⟩ : Bounds)

/-- `value.match(...)`: the first position where the bounds pattern
matches (scanning left to right). -/
def parseBoundsStr : Str → Option Bounds
  | [] => none
  | c :: rest =>
    match tryBoundsAt (c :: rest) with
    | some b => some b
    | none => parseBoundsStr rest

/-- `parseBounds` from `ui-parser.ts` (the argument is
`string | undefined`; a falsy value — absent or empty — yields `null`). -/
def parseBounds (value : Option Str) : Option Bounds :=
  match value with
  | none => none
  | some v => if v.isEmpty then none else parseBoundsStr v

/-- `defaultBounds` from `ui-parser.ts`. -/
def defaultBounds : Bounds := ⟨0, 0, 0, 0⟩

/-- `Math.round(s / 2)` for an integer `s`: JavaScript `Math.round`
rounds halves toward `+∞`, so `Math.round(s / 2) = ⌊(s + 1) / 2⌋`, which
is Euclidean division by `2` (the rounding claim against Mathlib's
`round` on `ℚ` is `round_intCast_div_two` below). -/
def jsRoundHalfSum (s : Int) : Int := (s + 1) / 2

/-- `centerFromBounds` from `ui-parser.ts`: `Math.round((x1 + x2) / 2)`
and `Math.round((y1 + y2) / 2)`. -/
def centerFromBounds (b : Bounds) : Center :=
  ⟨jsRoundHalfSum (b.x1 + b.x2), jsRoundHalfSum (b.y1 + b.y2)⟩


/-! ## Elements (`UIElement`, `parseUIElements` in `ui-parser.ts`) -/

/-- `UIElement` from `ui-parser.ts`.  The source field `class` is a Lean
keyword and is written `«class»`. -/
structure UIElement where
  index : Int
  text : Str
  «class» : Str
  resourceId : Str
  contentDesc : Str
  bounds : Bounds
  center : Center
  checkable : Bool
  checked : Bool
  clickable : Bool
  enabled : Bool
  focused : Bool
  scrollable : Bool
  selected : Bool
deriving DecidableEq, Repr

/-- `toBoolean` from `ui-parser.ts`: `value === 'true'`. -/
def toBoolean (value : Option Str) : Bool := value == some (str "true")

/-- Model of `Number.parseInt(s, 10)` returning `none` for `NaN`:
leading whitespace is skipped, an optional sign is read, then a maximal
leading digit run; no digits means `NaN`. -/
def jsParseInt (s : Str) : Option Int :=
  let t := s.dropWhile isWs
  match t with
  | '-' :: tl =>
    let run := tl.takeWhile Char.isDigit
    if run.isEmpty then none else some (-(decVal run : Int))
  | '+' :: tl =>
    let run := tl.takeWhile Char.isDigit
    if run.isEmpty then none else some ((decVal run : Int))
  | _ =>
    let run := t.takeWhile Char.isDigit
    if run.isEmpty then none else some ((decVal run : Int))

/-- `Number.parseInt(attrs.index ?? '', 10)` guarded by
`Number.isFinite`, for one tag. -/
def parsedIndexOf (tag : Str) : Option Int :=
  jsParseInt ((getAttr (parseAttributes tag) (str "index")).getD [])

/-- The loop body of `parseUIElements` for one matched tag, given the
current value of the fallback index counter. -/
def mkElement (tag : Str) (fallbackIndex : Nat) : UIElement :=
  let attrs := parseAttributes tag
  let bounds := (parseBounds (getAttr attrs (str "bounds"))).getD defaultBounds
  { index := (parsedIndexOf tag).getD (fallbackIndex : Int)
    text := (getAttr attrs (str "text")).getD []
    «class» := (getAttr attrs (str "class")).getD []
    resourceId := (getAttr attrs (str "resource-id")).getD []
    contentDesc := (getAttr attrs (str "content-desc")).getD []
    bounds := bounds
    center := centerFromBounds bounds
    checkable := toBoolean (getAttr attrs (str "checkable"))
    checked := toBoolean (getAttr attrs (str "checked"))
    clickable := toBoolean (getAttr attrs (str "clickable"))
    enabled := toBoolean (getAttr attrs (str "enabled"))
    focused := toBoolean (getAttr attrs (str "focused"))
    scrollable := toBoolean (getAttr attrs (str "scrollable"))
    selected := toBoolean (getAttr attrs (str "selected")) }

/-- The loop of `parseUIElements`: `fallbackIndex` starts at `0` and is
incremented once per element seen, unconditionally. -/
def parseLoop : List Str → Nat → List UIElement
  | [], _ => []
  | tag :: tags, fallbackIndex => mkElement tag fallbackIndex :: parseLoop tags (fallbackIndex + 1)

/-- `parseUIElements` from `ui-parser.ts`. -/
def parseUIElements (xml : Str) : List UIElement := parseLoop (findNodeTags xml) 0

/-- `isInteractive` (identical in `ui-parser.ts` and `tools/android.ts`). -/
def isInteractive (e : UIElement) : Bool := e.clickable || e.checkable || e.scrollable

/-! ## Element matcher (`FindCriteria`, `findElements` in `ui-parser.ts`) -/

/-- `FindCriteria` from `ui-parser.ts`; optional fields are `Option`s. -/
structure FindCriteria where
  text : Option Str := none
  textContains : Option Str := none
  «class» : Option Str := none
  resourceId : Option Str := none
  resourceIdContains : Option Str := none
  contentDesc : Option Str := none
  contentDescContains : Option Str := none
  checkable : Option Bool := none
  clickable : Option Bool := none
  normalizeWhitespace : Option Bool := none
  caseInsensitive : Option Bool := none
deriving DecidableEq, Repr

/-- Truthiness of an optional boolean flag (`if (criteria.flag)`). -/
def optTruthy (o : Option Bool) : Bool := o == some true

/-- `normalizeValue` from `ui-parser.ts`. -/
def normalizeValue (v : Str) (c : FindCriteria) : Str :=
  let n1 := if optTruthy c.normalizeWhitespace then trimStr (collapseWs v) else v
  if optTruthy c.caseInsensitive then lowerStr n1 else n1

/-- Failure of an exact comparison against an optional criterion
(`crit !== undefined && value !== crit`). -/
def failEq (crit : Option Str) (v : Str) : Bool :=
  match crit with
  | some t => v ≠ t
  | none => false

/-- Failure of a containment comparison against an optional criterion
(`crit !== undefined && !value.includes(crit)`). -/
def failContains (crit : Option Str) (v : Str) : Bool :=
  match crit with
  | some t => !(strIncludes t v)
  | none => false

/-- A criterion read through JavaScript truthiness
(`criteria.field ? g(criteria.field) : undefined`): an empty string is
falsy and yields `undefined`. -/
def truthyCriteria (g : Str → Str) (o : Option Str) : Option Str :=
  match o with
  | some s => if s.isEmpty then none else some (g s)
  | none => none

/-- The `class` failure condition of the filter body
(`criteria.class !== undefined && (ci ? lowered mismatch : mismatch)`). -/
def classFailOf (ci : Bool) (crit : Option Str) (v : Str) : Bool :=
  match crit with
  | some t => if ci then (lowerStr v ≠ lowerStr t : Bool) else (v ≠ t : Bool)
  | none => false

/-- A boolean-field failure condition
(`crit !== undefined && value !== crit`). -/
def boolFail (crit : Option Bool) (x : Bool) : Bool :=
  match crit with
  | some b => (x ≠ b : Bool)
  | none => false

/-- The filter body of `findElements`: the early-`return false` chain is
the conjunction of the negated failure conditions, in source order. -/
def elementMatches (c : FindCriteria) (e : UIElement) : Bool :=
  let ci := optTruthy c.caseInsensitive
  let textValue := normalizeValue e.text c
  let contentDescValue := normalizeValue e.contentDesc c
  let textCriteria := c.text.map (fun t => normalizeValue t c)
  let textContainsCriteria := c.textContains.map (fun t => normalizeValue t c)
  let contentDescCriteria := c.contentDesc.map (fun t => normalizeValue t c)
  let contentDescContainsCriteria := c.contentDescContains.map (fun t => normalizeValue t c)
  let resourceIdValue := if ci then lowerStr e.resourceId else e.resourceId
  -- `criteria.resourceId ? ... : undefined`: an empty string is falsy.
  let resourceIdCriteria := truthyCriteria (fun s => if ci then lowerStr s else s) c.resourceId
  let resourceIdContainsCriteria :=
    truthyCriteria (fun s => if ci then lowerStr s else s) c.resourceIdContains
  !(failEq textCriteria textValue) &&
  !(failContains textContainsCriteria textValue) &&
  !(classFailOf ci c.«class» e.«class») &&
  !(failEq contentDescCriteria contentDescValue) &&
  !(failContains contentDescContainsCriteria contentDescValue) &&
  !(failEq resourceIdCriteria resourceIdValue) &&
  !(failContains resourceIdContainsCriteria resourceIdValue) &&
  !(boolFail c.checkable e.checkable) &&
  !(boolFail c.clickable e.clickable)

/-- `findElements` from `ui-parser.ts`. -/
def findElements (elements : List UIElement) (criteria : FindCriteria) : List UIElement :=
  elements.filter (elementMatches criteria)

/-! ## Spec-side matcher (written from the words of spec §4.3)

These definitions follow the specification text, to be compared with the
source translation `elementMatches`/`findElements`: every specified
(non-`undefined`) field constrains, AND-combined; `text`/`textContains`
and `contentDesc`/`contentDescContains` normalize both sides with both
flags; `class`, `resourceId` (exact) and `resourceIdContains` case-fold
both sides under `caseInsensitive` but never whitespace-normalize;
boolean fields require equality. -/

/-- A specified (non-`undefined`) optional field must satisfy its
constraint; an absent field imposes none. -/
def optAll {α : Type} (p : α → Bool) : Option α → Bool
  | some t => p t
  | none => true

/-- Normalization of prose comparisons per spec §3: collapse whitespace
runs and trim when `normalizeWhitespace`, case-fold when
`caseInsensitive`. -/
def specNormalize (nw ci : Bool) (v : Str) : Str :=
  let n1 := if nw then trimStr (collapseWs v) else v
  if ci then lowerStr n1 else n1

/-- Case fold for identifier comparisons per spec §4.3. -/
def specFold (ci : Bool) (v : Str) : Str := if ci then lowerStr v else v

/-- The matcher as the claim states it: every non-`undefined` field is a
constraint (including empty strings). -/
def matchesSpec (c : FindCriteria) (e : UIElement) : Bool :=
  let nw := optTruthy c.normalizeWhitespace
  let ci := optTruthy c.caseInsensitive
  optAll (fun t => specNormalize nw ci e.text = specNormalize nw ci t) c.text &&
  optAll (fun t => strIncludes (specNormalize nw ci t) (specNormalize nw ci e.text))
    c.textContains &&
  optAll (fun t => specFold ci e.«class» = specFold ci t) c.«class» &&
  optAll (fun t => specNormalize nw ci e.contentDesc = specNormalize nw ci t) c.contentDesc &&
  optAll (fun t => strIncludes (specNormalize nw ci t) (specNormalize nw ci e.contentDesc))
    c.contentDescContains &&
  optAll (fun t => specFold ci e.resourceId = specFold ci t) c.resourceId &&
  optAll (fun t => strIncludes (specFold ci t) (specFold ci e.resourceId))
    c.resourceIdContains &&
  optAll (fun b => e.checkable = b) c.checkable &&
  optAll (fun b => e.clickable = b) c.clickable

/-- The matcher as amended: identical to `matchesSpec` except that an
empty-string `resourceId` or `resourceIdContains` criterion is treated as
unspecified (the code reads those two fields through a JavaScript
truthiness test). -/
def matchesSpecAmended (c : FindCriteria) (e : UIElement) : Bool :=
  let nw := optTruthy c.normalizeWhitespace
  let ci := optTruthy c.caseInsensitive
  optAll (fun t => specNormalize nw ci e.text = specNormalize nw ci t) c.text &&
  optAll (fun t => strIncludes (specNormalize nw ci t) (specNormalize nw ci e.text))
    c.textContains &&
  optAll (fun t => specFold ci e.«class» = specFold ci t) c.«class» &&
  optAll (fun t => specNormalize nw ci e.contentDesc = specNormalize nw ci t) c.contentDesc &&
  optAll (fun t => strIncludes (specNormalize nw ci t) (specNormalize nw ci e.contentDesc))
    c.contentDescContains &&
  optAll (fun t => if t.isEmpty then true
    else (specFold ci e.resourceId = specFold ci t : Bool)) c.resourceId &&
  optAll (fun t => if t.isEmpty then true
    else strIncludes (specFold ci t) (specFold ci e.resourceId)) c.resourceIdContains &&
  optAll (fun b => e.checkable = b) c.checkable &&
  optAll (fun b => e.clickable = b) c.clickable

/-- Fixture: a clickable button element with nonempty `text`, `class`
and `resourceId`, used in concrete instances. -/
def sampleButton : UIElement :=
  ⟨0, str "x", str "android.widget.Button", str "com.app:id/go", str "",
    ⟨0, 0, 1, 1⟩, ⟨1, 1⟩, false, false, true, true, false, false, false⟩

/-! ## Stabilization retry policy (`tools/android.ts`)

The asynchronous fetch per attempt is modelled by the list of element
lists the successive fetches would return; the loop runs
`attempts = fetches.length` iterations. -/

/-- `isOnlyProgress` from `tools/android.ts`: an empty list counts as
"only progress"; otherwise every element's class must contain
`"progressbar"` case-insensitively. -/
def isOnlyProgress (elements : List UIElement) : Bool :=
  if elements.isEmpty then true
  else elements.all (fun e => strIncludes (str "progressbar") (lowerStr e.«class»))

/-- The retry condition of `fetchUiElementsWithRetry`
(`elements.length === 0 || isOnlyProgress(elements) ||
(onlyInteractive === true && interactiveCount === 0)`). -/
def shouldRetry (onlyInteractive : Option Bool) (elements : List UIElement) : Bool :=
  elements.isEmpty || isOnlyProgress elements ||
    (onlyInteractive == some true && (elements.filter isInteractive).length == 0)

/-- `fetchUiElementsWithRetry` from `tools/android.ts`: the first stable
fetch is returned; if every attempt is unstable, the last fetched list is
returned (`lastElements`).  The `fetches` argument lists the successive
fetch results; its length is the attempt bound. -/
def fetchUiElementsWithRetry (onlyInteractive : Option Bool) :
    List (List UIElement) → List UIElement
  | [] => []
  | es :: rest =>
    if shouldRetry onlyInteractive es then
      match rest with
      | [] => es
      | _ :: _ => fetchUiElementsWithRetry onlyInteractive rest
    else es

/-! ## Device-serial resolution state machine (`adb.ts`) -/

/-- One record of `adb devices -l` output (`AdbDevice` in `adb.ts`). -/
structure AdbDevice where
  serial : Str
  state : Str
  details : Str
deriving DecidableEq, Repr

/-- Origin of a requested serial (`'override' | 'env' | null` is modelled
by `Option ReqSource`). -/
inductive ReqSource where
  | override
  | env
deriving DecidableEq, Repr

/-- `RequestedSerial` from `adb.ts`. -/
structure RequestedSerial where
  serial : Option Str
  source : Option ReqSource
deriving DecidableEq, Repr

/-- The `source` field of `AdbSerialState`. -/
inductive SerialSource where
  | override
  | env
  | auto
  | fallback
  | none
deriving DecidableEq, Repr

/-- `AdbSerialState` from `adb.ts` (optional fields as `Option`s). -/
structure AdbSerialState where
  serial : Option Str
  source : SerialSource
  requestedSerial : Option Str
  requestedSerialSource : Option ReqSource
  warning : Option Str := Option.none
  error : Option Str := Option.none
deriving DecidableEq, Repr

/-- The mutable module-level state of `adb.ts` that the claims concern:
`serialOverride` is `undefined | null | string`, modelled as
`Option (Option Str)`; `resolvedSerial` is the memoized resolution result
(`undefined | null | string`). -/
structure AdbState where
  serialOverride : Option (Option Str)
  resolvedSerial : Option (Option Str)
deriving DecidableEq, Repr

/-- `getRequestedSerial` from `adb.ts`: the process override (when set,
even to `null`) shadows the environment default `ADB_SERIAL`; the
environment value is used only when truthy. -/
def getRequestedSerial (serialOverride : Option (Option Str)) (env : Option Str) :
    RequestedSerial :=
  match serialOverride with
  | some v => ⟨v, some ReqSource.override⟩
  | none =>
    match env with
    | some s => if s.isEmpty then ⟨Option.none, Option.none⟩ else ⟨some s, some ReqSource.env⟩
    | none => ⟨Option.none, Option.none⟩

/-- `availableSerials.join(', ')`: elements separated by `", "`. -/
def joinSerials : List Str → Str
  | [] => []
  | [s] => s
  | s :: rest => s ++ str ", " ++ joinSerials rest

/-- The warning attached when falling back from a missing requested
device to the single online device. -/
def fallbackWarning (requested fb : Str) : Str :=
  str "Requested device " ++ requested ++ str " not found. Falling back to " ++ fb ++ str "."

/-- Error text: requested device missing, nothing connected. -/
def notFoundNoDevicesMsg (requested : Str) : Str :=
  str "Requested device " ++ requested ++ str " not found and no devices are connected."

/-- Error text: requested device missing, other devices online. -/
def notFoundAvailableMsg (requested available : Str) : Str :=
  str "Requested device " ++ requested ++ str " not found. Available devices: " ++
    available ++ str "."

/-- Error text: no devices at all, nothing requested. -/
def noDevicesMsg : Str :=
  str "No adb devices detected. Start an emulator or connect a device."

/-- Error text: several devices online, nothing requested. -/
def multiDevicesMsg (available : Str) : Str :=
  str "Multiple devices detected (" ++ available ++ str "). Set ADB_SERIAL or use setDevice."

/-- Lift a requested-serial origin to a result source
(`requestedSerialSource ?? 'env'`). -/
def liftReqSource : Option ReqSource → SerialSource
  | some ReqSource.override => SerialSource.override
  | some ReqSource.env => SerialSource.env
  | none => SerialSource.env

instance instDecidableEqExcept {ε α : Type} [DecidableEq ε] [DecidableEq α] :
    DecidableEq (Except ε α) := fun x y =>
  match x, y with
  | Except.error e, Except.error f =>
    if h : e = f then isTrue (by rw [h]) else isFalse (fun hh => h (Except.error.inj hh))
  | Except.ok a, Except.ok b =>
    if h : a = b then isTrue (by rw [h]) else isFalse (fun hh => h (Except.ok.inj hh))
  | Except.error _, Except.ok _ => isFalse (fun hh => Except.noConfusion hh)
  | Except.ok _, Except.error _ => isFalse (fun hh => Except.noConfusion hh)

/-- The no-requested-serial tail of `computeAdbSerialState`: auto-select
a single online device, otherwise report (or throw, in strict mode) the
zero- or multi-device error. -/
def resolveNoRequest (base : AdbSerialState) (online : List AdbDevice)
    (availableSerials : List Str) (strict : Bool) : Except Str AdbSerialState :=
  match online with
  | [d] => Except.ok { base with serial := some d.serial, source := SerialSource.auto }
  | _ =>
    let message := if online.isEmpty then noDevicesMsg
      else multiDevicesMsg (joinSerials availableSerials)
    if strict then Except.error message
    else Except.ok { base with error := some message }

/-- `computeAdbSerialState` from `adb.ts`.  A thrown error (strict mode)
is the `Except.error` case; `devices` is the parsed `adb devices -l`
output. -/
def computeAdbSerialState (serialOverride : Option (Option Str)) (env : Option Str)
    (devices : List AdbDevice) (strict : Bool) : Except Str AdbSerialState :=
  let req := getRequestedSerial serialOverride env
  let online := devices.filter (fun d => d.state == str "device")
  let availableSerials := online.map (·.serial)
  let base : AdbSerialState :=
    ⟨Option.none, SerialSource.none, req.serial, req.source, Option.none, Option.none⟩
  -- `if (requestedSerial)`: truthy means present and nonempty.
  match req.serial with
  | some rs =>
    if rs.isEmpty then
      resolveNoRequest base online availableSerials strict
    else if availableSerials.contains rs then
      Except.ok { base with serial := some rs, source := liftReqSource req.source }
    else
      match online with
      | [d] =>
        Except.ok { base with
          serial := some d.serial
          source := SerialSource.fallback
          warning := some (fallbackWarning rs d.serial) }
      | _ =>
        let available := if availableSerials.isEmpty then str "none"
          else joinSerials availableSerials
        let message := if online.isEmpty then notFoundNoDevicesMsg rs
          else notFoundAvailableMsg rs available
        if strict then Except.error message
        else Except.ok { base with error := some message }
  | none => resolveNoRequest base online availableSerials strict

/-- `getAdbSerialState` from `adb.ts`: a thrown resolution error is
caught and returned as data. -/
def getAdbSerialState (serialOverride : Option (Option Str)) (env : Option Str)
    (devices : List AdbDevice) (strict : Bool) : AdbSerialState :=
  match computeAdbSerialState serialOverride env devices strict with
  | Except.ok st => st
  | Except.error msg =>
    let req := getRequestedSerial serialOverride env
    ⟨Option.none, SerialSource.none, req.serial, req.source, Option.none, some msg⟩

/-- `setAdbSerialOverride` from `adb.ts`: `undefined` and `null` are kept
as-is; a string is trimmed, and the case-insensitive token `"auto"` is
stored as `null`.  The memoized `resolvedSerial` is always invalidated. -/
def setAdbSerialOverride (_st : AdbState) (serial : Option (Option Str)) : AdbState :=
  match serial with
  | none => ⟨none, none⟩
  | some none => ⟨some none, none⟩
  | some (some s) =>
    let trimmed := trimStr s
    ⟨some (if lowerStr trimmed = str "auto" then none else some trimmed), none⟩

/-! ## Claim-side decimal rendering

`renderBounds` builds the canonical `"[a,b][c,d]"` string of four signed
integers, formalizing the claim's "bounds attribute matches
`[a,b][c,d]` with signed integers a,b,c,d". -/

/-- Fuel-indexed decimal digits of a natural number (most significant
first, no leading zeros); fuel `n + 1` always suffices. -/
def natStrFuel : Nat → Nat → Str
  | 0, _ => []
  | fuel + 1, n =>
    if n < 10 then [Char.ofNat (48 + n)]
    else natStrFuel fuel (n / 10) ++ [Char.ofNat (48 + n % 10)]

/-- Decimal digits of a natural number. -/
def natStr (n : Nat) : Str := natStrFuel (n + 1) n

/-- Canonical decimal rendering of a signed integer. -/
def intStr (i : Int) : Str :=
  if i < 0 then '-' :: natStr i.natAbs else natStr i.natAbs

/-- The canonical `"[a,b][c,d]"` string. -/
def renderBounds (a b c d : Int) : Str :=
  '[' :: intStr a ++ ',' :: intStr b ++ ']' :: '[' :: intStr c ++ ',' :: intStr d ++ [']']

/-- Fixture: an online emulator device. -/
def sampleDeviceA : AdbDevice := ⟨str "emulator-5554", str "device", []⟩

/-- Fixture: a second online emulator device. -/
def sampleDeviceB : AdbDevice := ⟨str "emulator-5556", str "device", []⟩

/-! ## Helper lemmas -/

/-- The integer computation used by `centerFromBounds` is exactly
round-half-up of the exact midpoint: `round ((s : ℚ) / 2) = ⌊(s+1)/2⌋`. -/
theorem round_intCast_div_two (s : Int) : round ((s : ℚ) / 2) = jsRoundHalfSum s := by
  rw [round_eq, jsRoundHalfSum]
  have h : ((s : ℚ) / 2 + 1 / 2) = ((s + 1 : Int) : ℚ) / ((2 : ℕ) : ℚ) := by
    push_cast
    ring
  rw [h, Rat.floor_intCast_div_natCast]
  norm_num

/-- The fuel of `decodeXmlFuel` is irrelevant as long as it covers the
string length (every step consumes at least one character). -/
theorem decodeXmlFuel_congr : ∀ (f g : Nat) (s : Str), s.length ≤ f → s.length ≤ g →
    decodeXmlFuel f s = decodeXmlFuel g s := by
  intro f
  induction f with
  | zero =>
    intro g s hf _
    have hs : s = [] := List.eq_nil_of_length_eq_zero (Nat.le_zero.mp hf)
    subst hs
    cases g <;> simp [decodeXmlFuel]
  | succ f ih =>
    intro g s hf hg
    cases s with
    | nil => cases g <;> simp [decodeXmlFuel]
    | cons c rest =>
      cases g with
      | zero => simp at hg
      | succ g =>
        simp only [List.length_cons, Nat.add_le_add_iff_right] at hf hg
        by_cases hc : c = '&'
        · subst hc
          have hstep : ∀ (m : Nat), decodeXmlFuel (m + 1) ('&' :: rest) =
              match tryEntity rest with
              | some (repl, k) => repl ++ decodeXmlFuel m (rest.drop k)
              | none => '&' :: decodeXmlFuel m rest := by
            intro m
            simp [decodeXmlFuel]
          rw [hstep f, hstep g]
          cases he : tryEntity rest with
          | some rk =>
            obtain ⟨repl, k⟩ := rk
            have hlen : (rest.drop k).length ≤ rest.length := by
              simp [Nat.sub_le]
            exact congrArg (repl ++ ·) (ih g _ (le_trans hlen hf) (le_trans hlen hg))
          | none => exact congrArg ('&' :: ·) (ih g rest hf hg)
        · simp only [decodeXmlFuel, if_neg hc]
          rw [ih g rest hf hg]

/-- Unfolding `decodeXml` one step at a non-entity position. -/
theorem decodeXml_cons_of_ne (c : Char) (s : Str) (hc : c ≠ '&') :
    decodeXml (c :: s) = c :: decodeXml s := by
  simp only [decodeXml, List.length_cons, decodeXmlFuel, if_neg hc]

/-- Unfolding `decodeXml` one step at a successful entity match. -/
theorem decodeXml_amp_match (s : Str) (repl : Str) (k : Nat)
    (h : tryEntity s = some (repl, k)) :
    decodeXml ('&' :: s) = repl ++ decodeXml (s.drop k) := by
  simp only [decodeXml, List.length_cons, decodeXmlFuel, if_pos rfl, h]
  exact congrArg (repl ++ ·) (decodeXmlFuel_congr _ _ _ (by simp [Nat.sub_le]) le_rfl)

/-- `#\d+;` succeeds on a nonempty all-digit run followed by `';'`. -/
theorem decAttempt_exact (ds s : Str) (hne : ds ≠ []) (hdig : ∀ c ∈ ds, c.isDigit) :
    decAttempt (ds ++ ';' :: s) = some ([fromCharCode (decVal ds)], 1 + ds.length + 1) := by
  have hsemi : (';' : Char).isDigit = false := rfl
  have htake : (ds ++ ';' :: s).takeWhile Char.isDigit = ds := by
    rw [List.takeWhile_append_of_pos hdig, List.takeWhile_cons, hsemi]
    simp
  have hempty : ds.isEmpty = false := by
    cases ds with
    | nil => exact absurd rfl hne
    | cons d t => rfl
  simp only [decAttempt, htake, hempty, Bool.false_eq_true, if_false, List.drop_left]

/-- `#x[0-9a-fA-F]+;` succeeds on a nonempty all-hex run followed by `';'`. -/
theorem hexAttempt_exact (hs s : Str) (hne : hs ≠ []) (hhex : ∀ c ∈ hs, isHexDigitChar c) :
    hexAttempt (hs ++ ';' :: s) = some ([fromCharCode (hexVal hs)], 2 + hs.length + 1) := by
  have hsemi : isHexDigitChar ';' = false := rfl
  have htake : (hs ++ ';' :: s).takeWhile isHexDigitChar = hs := by
    rw [List.takeWhile_append_of_pos hhex, List.takeWhile_cons, hsemi]
    simp
  have hempty : hs.isEmpty = false := by
    cases hs with
    | nil => exact absurd rfl hne
    | cons d t => rfl
  simp only [hexAttempt, htake, hempty, Bool.false_eq_true, if_false, List.drop_left]

/-- One decode step for a decimal entity `&#ds;`. -/
theorem decodeXml_dec_entity (ds s : Str) (hne : ds ≠ []) (hdig : ∀ c ∈ ds, c.isDigit) :
    decodeXml (str "&#" ++ ds ++ ';' :: s) = fromCharCode (decVal ds) :: decodeXml s := by
  obtain ⟨d, ds', rfl⟩ := List.exists_cons_of_ne_nil hne
  have hd : d.isDigit := hdig d (by simp)
  have hdx : d ≠ 'x' := by
    intro h
    subst h
    exact absurd hd (by decide)
  have hentity : tryEntity ('#' :: (d :: ds' ++ ';' :: s)) =
      some ([fromCharCode (decVal (d :: ds'))], 1 + (d :: ds').length + 1) := by
    have h1 : tryEntity ('#' :: (d :: ds' ++ ';' :: s)) = decAttempt (d :: ds' ++ ';' :: s) := by
      simp [tryEntity, hdx]
    rw [h1]
    exact decAttempt_exact (d :: ds') s hne hdig
  have hcons : str "&#" ++ (d :: ds') ++ ';' :: s = '&' :: ('#' :: (d :: ds' ++ ';' :: s)) := rfl
  rw [hcons, decodeXml_amp_match _ _ _ hentity]
  have hdrop : ('#' :: (d :: ds' ++ ';' :: s)).drop (1 + (d :: ds').length + 1) = s := by
    have he : ('#' :: (d :: ds' ++ ';' :: s)) = '#' :: ((d :: ds' ++ [';']) ++ s) := by
      simp
    have hlen : 1 + (d :: ds').length + 1 = (d :: ds' ++ [';']).length + 1 := by
      simp only [List.length_append, List.length_cons, List.length_nil]
      omega
    rw [he, hlen, List.drop_succ_cons, List.drop_left]
  rw [hdrop]
  rfl

/-- One decode step for a hex entity `&#xhs;`. -/
theorem decodeXml_hex_entity (hs s : Str) (hne : hs ≠ []) (hhex : ∀ c ∈ hs, isHexDigitChar c) :
    decodeXml (str "&#x" ++ hs ++ ';' :: s) = fromCharCode (hexVal hs) :: decodeXml s := by
  have hentity : tryEntity ('#' :: 'x' :: (hs ++ ';' :: s)) =
      some ([fromCharCode (hexVal hs)], 2 + hs.length + 1) := by
    have h1 : tryEntity ('#' :: 'x' :: (hs ++ ';' :: s)) = hexAttempt (hs ++ ';' :: s) := by
      simp [tryEntity]
    rw [h1]
    exact hexAttempt_exact hs s hne hhex
  have hcons : str "&#x" ++ hs ++ ';' :: s = '&' :: ('#' :: 'x' :: (hs ++ ';' :: s)) := rfl
  rw [hcons, decodeXml_amp_match _ _ _ hentity]
  have hdrop : ('#' :: 'x' :: (hs ++ ';' :: s)).drop (2 + hs.length + 1) = s := by
    have he : ('#' :: 'x' :: (hs ++ ';' :: s)) = '#' :: 'x' :: ((hs ++ [';']) ++ s) := by
      simp
    have hlen : 2 + hs.length + 1 = (hs ++ [';']).length + 2 := by
      simp only [List.length_append, List.length_cons, List.length_nil]
      omega
    rw [he, hlen, List.drop_succ_cons, List.drop_succ_cons, List.drop_left]
  rw [hdrop]
  rfl

/-- One decode step for each recognized named entity. -/
theorem decodeXml_named (s : Str) :
    decodeXml (str "&quot;" ++ s) = '"' :: decodeXml s ∧
    decodeXml (str "&amp;" ++ s) = '&' :: decodeXml s ∧
    decodeXml (str "&lt;" ++ s) = '<' :: decodeXml s ∧
    decodeXml (str "&gt;" ++ s) = '>' :: decodeXml s ∧
    decodeXml (str "&apos;" ++ s) = '\'' :: decodeXml s := by
  refine ⟨?_, ?_, ?_, ?_, ?_⟩
  · rw [show str "&quot;" ++ s = '&' :: (str "quot;" ++ s) from rfl,
      decodeXml_amp_match (str "quot;" ++ s) [('"' : Char)] 5
        (by simp [tryEntity, str, List.isPrefixOf])]
    rfl
  · rw [show str "&amp;" ++ s = '&' :: (str "amp;" ++ s) from rfl,
      decodeXml_amp_match (str "amp;" ++ s) [('&' : Char)] 4
        (by simp [tryEntity, str, List.isPrefixOf])]
    rfl
  · rw [show str "&lt;" ++ s = '&' :: (str "lt;" ++ s) from rfl,
      decodeXml_amp_match (str "lt;" ++ s) [('<' : Char)] 3
        (by simp [tryEntity, str, List.isPrefixOf])]
    rfl
  · rw [show str "&gt;" ++ s = '&' :: (str "gt;" ++ s) from rfl,
      decodeXml_amp_match (str "gt;" ++ s) [('>' : Char)] 3
        (by simp [tryEntity, str, List.isPrefixOf])]
    rfl
  · rw [show str "&apos;" ++ s = '&' :: (str "apos;" ++ s) from rfl,
      decodeXml_amp_match (str "apos;" ++ s) [('\'' : Char)] 5
        (by simp [tryEntity, str, List.isPrefixOf])]
    rfl

/-! ## Claim C2 -/

/-- Claim C2, counterexample: the claim states
`decode("&unknownEntity;") = ""`, but the entity regex only matches the
five recognized names, so an unrecognized named entity is left entirely
unchanged — in particular it is not the empty string. -/
theorem claim_C2_counterexample :
    decodeXml (str "&unknownEntity;") = str "&unknownEntity;" ∧
    decodeXml (str "&unknownEntity;") ≠ str "" := by
  decide

/-- Claim C2, amended: the decoder replaces each recognized named entity
(`quot`, `amp`, `lt`, `gt`, `apos`) and each numeric entity (`&#N;`
decimal, `&#xH;` hex) by its character (numeric code points truncated to
a UTF-16 code unit), leaves any other character — hence any unrecognized
named entity — unchanged, and satisfies `decode("&amp;") = "&"`,
`decode("&#65;") = "A"`, `decode("&#x41;") = "A"`, while
`decode("&unknownEntity;")` is the input unchanged (not `""`). -/
theorem claim_C2 :
    (∀ s : Str, decodeXml (str "&quot;" ++ s) = '"' :: decodeXml s) ∧
    (∀ s : Str, decodeXml (str "&amp;" ++ s) = '&' :: decodeXml s) ∧
    (∀ s : Str, decodeXml (str "&lt;" ++ s) = '<' :: decodeXml s) ∧
    (∀ s : Str, decodeXml (str "&gt;" ++ s) = '>' :: decodeXml s) ∧
    (∀ s : Str, decodeXml (str "&apos;" ++ s) = '\'' :: decodeXml s) ∧
    (∀ ds s : Str, ds ≠ [] → (∀ c ∈ ds, c.isDigit) →
      decodeXml (str "&#" ++ ds ++ ';' :: s) = fromCharCode (decVal ds) :: decodeXml s) ∧
    (∀ hs s : Str, hs ≠ [] → (∀ c ∈ hs, isHexDigitChar c) →
      decodeXml (str "&#x" ++ hs ++ ';' :: s) = fromCharCode (hexVal hs) :: decodeXml s) ∧
    (∀ (c : Char) (s : Str), c ≠ '&' → decodeXml (c :: s) = c :: decodeXml s) ∧
    decodeXml (str "&amp;") = str "&" ∧
    decodeXml (str "&#65;") = str "A" ∧
    decodeXml (str "&#x41;") = str "A" ∧
    decodeXml (str "&unknownEntity;") = str "&unknownEntity;" := by
  refine ⟨fun s => (decodeXml_named s).1, fun s => (decodeXml_named s).2.1,
    fun s => (decodeXml_named s).2.2.1, fun s => (decodeXml_named s).2.2.2.1,
    fun s => (decodeXml_named s).2.2.2.2, decodeXml_dec_entity, decodeXml_hex_entity,
    decodeXml_cons_of_ne, by decide, by decide, by decide, by decide⟩

/-- Witness for the hypotheses of `claim_C2`: the numeric-entity and
passthrough rules applied at concrete inputs. -/
theorem claim_C2_witness :
    decodeXml (str "&#" ++ str "65" ++ ';' :: str "z") =
      fromCharCode (decVal (str "65")) :: decodeXml (str "z") ∧
    decodeXml (str "&#x" ++ str "41" ++ ';' :: str "z") =
      fromCharCode (hexVal (str "41")) :: decodeXml (str "z") ∧
    decodeXml ('z' :: str "abc") = 'z' :: decodeXml (str "abc") :=
  ⟨claim_C2.2.2.2.2.2.1 (str "65") (str "z") (by decide) (by decide),
   claim_C2.2.2.2.2.2.2.1 (str "41") (str "z") (by decide) (by decide),
   claim_C2.2.2.2.2.2.2.2.1 'z' (str "abc") (by decide)⟩

/-! ## Matcher lemmas and claims C1, C5, C10 -/

theorem normalizeValue_eq_spec (v : Str) (c : FindCriteria) :
    normalizeValue v c =
      specNormalize (optTruthy c.normalizeWhitespace) (optTruthy c.caseInsensitive) v := rfl

theorem ite_lower_eq_specFold (ci : Bool) (v : Str) :
    (if ci then lowerStr v else v) = specFold ci v := rfl

theorem not_failEq (o : Option Str) (v : Str) :
    (!(failEq o v)) = optAll (fun t => v = t) o := by
  cases o <;> simp [failEq, optAll]

theorem not_failContains (o : Option Str) (v : Str) :
    (!(failContains o v)) = optAll (fun t => strIncludes t v) o := by
  cases o <;> simp [failContains, optAll]

theorem optAll_map {α β : Type} (f : α → β) (p : β → Bool) (o : Option α) :
    optAll p (o.map f) = optAll (fun t => p (f t)) o := by
  cases o <;> simp [optAll]

theorem not_failEq_truthy (g : Str → Str) (o : Option Str) (v : Str) :
    (!(failEq (truthyCriteria g o) v)) =
      optAll (fun t => if t.isEmpty then true else (v = g t : Bool)) o := by
  cases o with
  | none => simp [failEq, truthyCriteria, optAll]
  | some s => cases hs : s.isEmpty <;> simp [failEq, truthyCriteria, optAll, hs]

theorem not_failContains_truthy (g : Str → Str) (o : Option Str) (v : Str) :
    (!(failContains (truthyCriteria g o) v)) =
      optAll (fun t => if t.isEmpty then true else strIncludes (g t) v) o := by
  cases o with
  | none => simp [failContains, truthyCriteria, optAll]
  | some s => cases hs : s.isEmpty <;> simp [failContains, truthyCriteria, optAll, hs]

theorem not_classFail (ci : Bool) (o : Option Str) (a : Str) :
    (!(classFailOf ci o a)) =
      optAll (fun t => ((if ci then lowerStr a else a) = (if ci then lowerStr t else t) : Bool))
        o := by
  cases o <;> cases ci <;> simp [classFailOf, optAll]

theorem not_boolFail (o : Option Bool) (x : Bool) :
    (!(boolFail o x)) = optAll (fun b => (x = b : Bool)) o := by
  cases o <;> simp [boolFail, optAll]

/-- The filter body of `findElements` is exactly the amended spec
matcher. -/
theorem elementMatches_eq_amended (c : FindCriteria) (e : UIElement) :
    elementMatches c e = matchesSpecAmended c e := by
  show
    (!(failEq (c.text.map (fun t => normalizeValue t c)) (normalizeValue e.text c)) &&
    !(failContains (c.textContains.map (fun t => normalizeValue t c)) (normalizeValue e.text c)) &&
    !(classFailOf (optTruthy c.caseInsensitive) c.«class» e.«class») &&
    !(failEq (c.contentDesc.map (fun t => normalizeValue t c)) (normalizeValue e.contentDesc c)) &&
    !(failContains (c.contentDescContains.map (fun t => normalizeValue t c))
        (normalizeValue e.contentDesc c)) &&
    !(failEq
        (truthyCriteria (fun s => if optTruthy c.caseInsensitive then lowerStr s else s)
          c.resourceId)
        (if optTruthy c.caseInsensitive then lowerStr e.resourceId else e.resourceId)) &&
    !(failContains
        (truthyCriteria (fun s => if optTruthy c.caseInsensitive then lowerStr s else s)
          c.resourceIdContains)
        (if optTruthy c.caseInsensitive then lowerStr e.resourceId else e.resourceId)) &&
    !(boolFail c.checkable e.checkable) &&
    !(boolFail c.clickable e.clickable)) = matchesSpecAmended c e
  rw [not_failEq, not_failContains, not_classFail, not_failEq, not_failContains,
    not_failEq_truthy, not_failContains_truthy, not_boolFail, not_boolFail,
    optAll_map, optAll_map, optAll_map, optAll_map]
  rfl

/-- Claim C1, counterexample: with the criteria `{resourceId: ""}` — a
specified, non-`undefined` field — the claim requires the result to be
the subset whose `resourceId` equals `""` exactly, which excludes
`sampleButton` (its `resourceId` is `"com.app:id/go"`); but `findElements`
ignores an empty-string `resourceId` criterion and keeps the element. -/
theorem claim_C1_counterexample :
    findElements [sampleButton] { resourceId := some [] } = [sampleButton] ∧
    matchesSpec { resourceId := some [] } sampleButton = false := by
  decide

/-- Claim C1, amended: `findElements` returns exactly the subset of
elements satisfying every specified (non-undefined) field, AND-combined,
absent fields imposing no constraint, with `resourceId`/`resourceIdContains`
comparisons case-folded on both sides under `caseInsensitive` and never
whitespace-normalized — except that an empty-string `resourceId` or
`resourceIdContains` criterion is treated as unspecified. -/
theorem claim_C1 (elements : List UIElement) (criteria : FindCriteria) :
    findElements elements criteria =
      elements.filter (fun e => matchesSpecAmended criteria e) := by
  unfold findElements
  exact List.filter_congr (fun e _ => elementMatches_eq_amended criteria e)

/-- Claim C5: the empty criteria object (every field `undefined`) is the
identity filter — every element matches and order is preserved. -/
theorem claim_C5 (elements : List UIElement) : findElements elements {} = elements := by
  unfold findElements
  rw [List.filter_eq_self]
  intro e _
  rfl

/-- Claim C10: an empty-string `resourceId` or `resourceIdContains`
criterion behaves exactly as if the field were unspecified, for any
element list and any other criteria fields; unlike `text`, `contentDesc`
and `class`, where an empty-string criterion is a real exact-match
constraint (shown on `sampleButton`, whose `text`, `class` and
`resourceId` are all nonempty). -/
theorem claim_C10 :
    (∀ (elements : List UIElement) (c : FindCriteria),
      findElements elements { c with resourceId := some [] } =
        findElements elements { c with resourceId := none }) ∧
    (∀ (elements : List UIElement) (c : FindCriteria),
      findElements elements { c with resourceIdContains := some [] } =
        findElements elements { c with resourceIdContains := none }) ∧
    findElements [sampleButton] { resourceId := some [] } = [sampleButton] ∧
    findElements [sampleButton] { resourceIdContains := some [] } = [sampleButton] ∧
    findElements [sampleButton] { text := some [] } = [] ∧
    findElements [sampleButton] { «class» := some [] } = [] ∧
    findElements [sampleButton] { contentDesc := some [] } = [sampleButton] := by
  refine ⟨?_, ?_, by decide, by decide, by decide, by decide, by decide⟩
  · intro elements c
    unfold findElements
    exact List.filter_congr (fun e _ => rfl)
  · intro elements c
    unfold findElements
    exact List.filter_congr (fun e _ => rfl)

/-! ## Claim C6: stabilization retry policy -/

/-- The `includes` model coincides with contiguous-substring occurrence. -/
theorem strIncludes_iff_infix (sub v : Str) : strIncludes sub v = true ↔ sub <:+: v := by
  induction v with
  | nil =>
    simp [strIncludes, List.infix_nil, List.isEmpty_iff]
  | cons c rest ih =>
    simp [strIncludes, List.isPrefixOf_iff_prefix, ih, List.infix_cons_iff]

/-- When every fetched list is judged unstable, the loop returns the last
fetched list. -/
theorem retry_all_unstable (oi : Option Bool) :
    ∀ (fetches : List (List UIElement)) (h : fetches ≠ []),
      (∀ els ∈ fetches, shouldRetry oi els = true) →
      fetchUiElementsWithRetry oi fetches = fetches.getLast h := by
  intro fetches
  induction fetches with
  | nil => intro h; exact absurd rfl h
  | cons es rest ih =>
    intro h hall
    cases rest with
    | nil => simp [fetchUiElementsWithRetry, hall es (by simp)]
    | cons es2 rest2 =>
      have hr := ih (by simp) (fun els hm => hall els (by simp [hm]))
      rw [List.getLast_cons]
      simpa [fetchUiElementsWithRetry, hall es (by simp)] using hr

/-- Claim C6: a fetch is judged unstable exactly when the element list is
empty, or every element's class contains `"progressbar"` case-insensitively
(vacuously true on the empty list), or interactive-only was requested and
no element is clickable, checkable or scrollable; and when every attempt
is unstable, the loop returns the last fetched list rather than failing. -/
theorem claim_C6 (onlyInteractive : Option Bool) (fetches : List (List UIElement))
    (h : fetches ≠ []) :
    (∀ els : List UIElement,
      shouldRetry onlyInteractive els = true ↔
        (els = [] ∨
         (∀ e ∈ els, (str "progressbar") <:+: lowerStr e.«class») ∨
         (onlyInteractive = some true ∧
           ∀ e ∈ els, ¬(e.clickable = true ∨ e.checkable = true ∨ e.scrollable = true)))) ∧
    ((∀ els ∈ fetches, shouldRetry onlyInteractive els = true) →
      fetchUiElementsWithRetry onlyInteractive fetches = fetches.getLast h) := by
  constructor
  · intro els
    cases els with
    | nil => simp [shouldRetry]
    | cons e rest =>
      simp only [shouldRetry, isOnlyProgress, isInteractive, List.isEmpty_cons,
        Bool.false_or, Bool.or_eq_true, Bool.and_eq_true, beq_iff_eq,
        List.all_eq_true, List.length_eq_zero, List.filter_eq_nil_iff,
        strIncludes_iff_infix, if_false, Bool.false_eq_true]
      constructor
      · rintro (hp | ⟨hoi, hni⟩)
        · exact Or.inr (Or.inl hp)
        · refine Or.inr (Or.inr ⟨hoi, fun x hx => ?_⟩)
          have := hni x hx
          simpa [and_assoc] using this
      · rintro (hnil | hp | ⟨hoi, hni⟩)
        · exact absurd hnil (List.cons_ne_nil e rest)
        · exact Or.inl hp
        · refine Or.inr ⟨hoi, fun x hx => ?_⟩
          have := hni x hx
          simpa [and_assoc] using this
  · exact retry_all_unstable onlyInteractive fetches h

/-- Witness for the hypotheses of `claim_C6`: two unstable (empty)
fetches — the loop returns the last fetched (empty) list. -/
theorem claim_C6_witness : fetchUiElementsWithRetry Option.none [[], []] = [] := by
  have h : ([[], []] : List (List UIElement)) ≠ [] := by decide
  have h2 := (claim_C6 Option.none [[], []] h).2 (by decide)
  rw [h2]
  rfl

/-! ## Claims C7, C8, C9: serial resolution -/

/-- Every serial occurs contiguously in the joined serial list. -/
theorem mem_infix_joinSerials : ∀ (xs : List Str) (x : Str), x ∈ xs → x <:+: joinSerials xs := by
  intro xs
  induction xs with
  | nil => intro x hx; simp at hx
  | cons a t ih =>
    intro x hx
    rcases List.mem_cons.mp hx with rfl | hxt
    · cases t with
      | nil => exact List.infix_refl x
      | cons b t2 =>
        exact ⟨[], str ", " ++ joinSerials (b :: t2), by simp [joinSerials, List.append_assoc]⟩
    · cases t with
      | nil => simp at hxt
      | cons b t2 =>
        refine (ih x hxt).trans ⟨a ++ str ", ", [], by simp [joinSerials, List.append_assoc]⟩

/-- Claim C7: a requested serial that is missing from the device list,
with exactly one device online, resolves to that device with a fallback
warning naming both serials, never an error — in strict mode as well. -/
theorem claim_C7 (serialOverride : Option (Option Str)) (env : Option Str)
    (devices : List AdbDevice) (strict : Bool) (rs : Str) (d : AdbDevice)
    (hreq : (getRequestedSerial serialOverride env).serial = some rs)
    (hne : rs ≠ [])
    (honline : devices.filter (fun dv => dv.state == str "device") = [d])
    (hmiss : d.serial ≠ rs) :
    computeAdbSerialState serialOverride env devices strict =
      Except.ok
        { serial := some d.serial
          source := SerialSource.fallback
          requestedSerial := some rs
          requestedSerialSource := (getRequestedSerial serialOverride env).source
          warning := some (fallbackWarning rs d.serial)
          error := Option.none } ∧
    rs <:+: fallbackWarning rs d.serial ∧
    d.serial <:+: fallbackWarning rs d.serial := by
  refine ⟨?_, ?_, ?_⟩
  · have hempty : rs.isEmpty = false := by
      cases rs with
      | nil => exact absurd rfl hne
      | cons a t => rfl
    simp only [computeAdbSerialState]
    rw [hreq, honline]
    simp [hempty, hreq, List.contains, Ne.symm hmiss]
  · exact ⟨str "Requested device ",
      str " not found. Falling back to " ++ d.serial ++ str ".",
      by simp [fallbackWarning, List.append_assoc]⟩
  · exact ⟨str "Requested device " ++ rs ++ str " not found. Falling back to ",
      str ".", by simp [fallbackWarning, List.append_assoc]⟩

/-- Witness for the hypotheses of `claim_C7`: requesting `"nope"` with a
single online emulator falls back to the emulator with a warning. -/
theorem claim_C7_witness :
    computeAdbSerialState (some (some (str "nope"))) Option.none [sampleDeviceA] true =
      Except.ok
        { serial := some sampleDeviceA.serial
          source := SerialSource.fallback
          requestedSerial := some (str "nope")
          requestedSerialSource :=
            (getRequestedSerial (some (some (str "nope"))) Option.none).source
          warning := some (fallbackWarning (str "nope") sampleDeviceA.serial)
          error := Option.none } :=
  (claim_C7 (some (some (str "nope"))) Option.none [sampleDeviceA] true (str "nope")
    sampleDeviceA (by decide) (by decide) (by decide) (by decide)).1

/-- On the no-requested-serial path, `computeAdbSerialState` is
`resolveNoRequest`. -/
theorem computeAdbSerialState_noRequest (serialOverride : Option (Option Str)) (env : Option Str)
    (devices : List AdbDevice) (strict : Bool)
    (hreq : (getRequestedSerial serialOverride env).serial = Option.none ∨
      (getRequestedSerial serialOverride env).serial = some []) :
    computeAdbSerialState serialOverride env devices strict =
      resolveNoRequest
        ⟨Option.none, SerialSource.none, (getRequestedSerial serialOverride env).serial,
          (getRequestedSerial serialOverride env).source, Option.none, Option.none⟩
        (devices.filter (fun dv => dv.state == str "device"))
        ((devices.filter (fun dv => dv.state == str "device")).map (·.serial)) strict := by
  simp only [computeAdbSerialState]
  rcases hreq with h | h
  · rw [h]
  · rw [h]
    rfl

/-- Claim C8: with no requested serial, one online device is
auto-selected; zero online devices yields the "no devices detected"
error; two or more yields an error listing every online serial — thrown
in strict mode, returned as data (`serial = null`, `error` set) in
non-strict mode, where `getAdbSerialState` passes the data through. -/
theorem claim_C8 (serialOverride : Option (Option Str)) (env : Option Str)
    (devices : List AdbDevice) (strict : Bool)
    (hreq : (getRequestedSerial serialOverride env).serial = Option.none ∨
      (getRequestedSerial serialOverride env).serial = some []) :
    (∀ d : AdbDevice, devices.filter (fun dv => dv.state == str "device") = [d] →
      computeAdbSerialState serialOverride env devices strict =
        Except.ok
          { serial := some d.serial, source := SerialSource.auto,
            requestedSerial := (getRequestedSerial serialOverride env).serial,
            requestedSerialSource := (getRequestedSerial serialOverride env).source,
            warning := Option.none, error := Option.none }) ∧
    (devices.filter (fun dv => dv.state == str "device") = [] →
      (strict = true →
        computeAdbSerialState serialOverride env devices strict = Except.error noDevicesMsg) ∧
      (strict = false →
        computeAdbSerialState serialOverride env devices strict =
          Except.ok
            { serial := Option.none, source := SerialSource.none,
              requestedSerial := (getRequestedSerial serialOverride env).serial,
              requestedSerialSource := (getRequestedSerial serialOverride env).source,
              warning := Option.none, error := some noDevicesMsg })) ∧
    (∀ (a b : AdbDevice) (tl : List AdbDevice),
      devices.filter (fun dv => dv.state == str "device") = a :: b :: tl →
      (strict = true →
        computeAdbSerialState serialOverride env devices strict =
          Except.error (multiDevicesMsg (joinSerials ((a :: b :: tl).map (·.serial))))) ∧
      (strict = false →
        computeAdbSerialState serialOverride env devices strict =
          Except.ok
            { serial := Option.none, source := SerialSource.none,
              requestedSerial := (getRequestedSerial serialOverride env).serial,
              requestedSerialSource := (getRequestedSerial serialOverride env).source,
              warning := Option.none,
              error := some (multiDevicesMsg (joinSerials ((a :: b :: tl).map (·.serial)))) }) ∧
      (∀ d ∈ a :: b :: tl,
        d.serial <:+: multiDevicesMsg (joinSerials ((a :: b :: tl).map (·.serial))))) ∧
    (∀ st : AdbSerialState,
      computeAdbSerialState serialOverride env devices false = Except.ok st →
      getAdbSerialState serialOverride env devices false = st) := by
  refine ⟨?_, ?_, ?_, ?_⟩
  · intro d hd
    rw [computeAdbSerialState_noRequest serialOverride env devices strict hreq, hd]
    rfl
  · intro hd
    rw [computeAdbSerialState_noRequest serialOverride env devices strict hreq, hd]
    constructor
    · intro hs
      subst hs
      rfl
    · intro hs
      subst hs
      rfl
  · intro a b tl hd
    rw [computeAdbSerialState_noRequest serialOverride env devices strict hreq, hd]
    refine ⟨?_, ?_, ?_⟩
    · intro hs
      subst hs
      rfl
    · intro hs
      subst hs
      rfl
    · intro d hdmem
      have h1 : d.serial <:+: joinSerials ((a :: b :: tl).map (·.serial)) :=
        mem_infix_joinSerials _ _ (List.mem_map_of_mem _ hdmem)
      refine h1.trans ⟨str "Multiple devices detected (",
        str "). Set ADB_SERIAL or use setDevice.", ?_⟩
      simp [multiDevicesMsg, List.append_assoc]
  · intro st hst
    unfold getAdbSerialState
    rw [hst]

/-- Witness for the hypotheses of `claim_C8`: two online devices, no
requested serial, strict mode — the multi-device error is thrown and
lists both serials. -/
theorem claim_C8_witness :
    computeAdbSerialState Option.none Option.none [sampleDeviceA, sampleDeviceB] true =
      Except.error (multiDevicesMsg (joinSerials [str "emulator-5554", str "emulator-5556"])) :=
  ((claim_C8 Option.none Option.none [sampleDeviceA, sampleDeviceB] true
      (Or.inl (by decide))).2.2.1 sampleDeviceA sampleDeviceB [] (by decide)).1 rfl

/-- Claim C9, counterexample: after `setAdbSerialOverride("auto")` with
the environment default `ADB_SERIAL = "emulator-5554"` set, the override
becomes the explicit `null` preference (`some none`), and
`getRequestedSerial` returns no requested serial with source `override` —
it does not fall back to the environment default. -/
theorem claim_C9_counterexample :
    (setAdbSerialOverride ⟨Option.none, Option.none⟩ (some (some (str "auto")))).serialOverride =
      some Option.none ∧
    getRequestedSerial
      (setAdbSerialOverride ⟨Option.none, Option.none⟩
        (some (some (str "auto")))).serialOverride
      (some (str "emulator-5554")) =
      ⟨Option.none, some ReqSource.override⟩ ∧
    getRequestedSerial
      (setAdbSerialOverride ⟨Option.none, Option.none⟩
        (some (some (str "auto")))).serialOverride
      (some (str "emulator-5554")) ≠
      ⟨some (str "emulator-5554"), some ReqSource.env⟩ := by
  decide

/-- Claim C9, amended: setting the override to the token `"auto"` (any
casing, surrounding whitespace ignored) stores the explicit
null-preference override (`serialOverride = null`) and invalidates the
memoized resolution; subsequent resolution then uses no requested serial
(source `override`) regardless of the environment default.  The
environment default is consulted only when the override is entirely unset
(`undefined`), in which case a nonempty `ADB_SERIAL` becomes the
requested serial. -/
theorem claim_C9 (st : AdbState) (s : Str)
    (hauto : lowerStr (trimStr s) = str "auto") :
    (setAdbSerialOverride st (some (some s))).serialOverride = some Option.none ∧
    (∀ env : Option Str,
      getRequestedSerial (setAdbSerialOverride st (some (some s))).serialOverride env =
        ⟨Option.none, some ReqSource.override⟩) ∧
    (setAdbSerialOverride st (some (some s))).resolvedSerial = Option.none ∧
    (∀ e : Str, e ≠ [] →
      getRequestedSerial Option.none (some e) = ⟨some e, some ReqSource.env⟩) := by
  refine ⟨?_, ?_, ?_, ?_⟩
  · simp [setAdbSerialOverride, hauto]
  · intro env
    simp [setAdbSerialOverride, hauto, getRequestedSerial]
  · simp [setAdbSerialOverride]
  · intro e he
    have hempty : e.isEmpty = false := by
      cases e with
      | nil => exact absurd rfl he
      | cons a t => rfl
    simp [getRequestedSerial, hempty]

/-- Witness for the hypotheses of `claim_C9`: the mixed-case, padded
token `" AUTO "` clears the override to the explicit null preference. -/
theorem claim_C9_witness :
    (setAdbSerialOverride ⟨Option.none, Option.none⟩
        (some (some (str " AUTO ")))).serialOverride = some Option.none ∧
    getRequestedSerial
      (setAdbSerialOverride ⟨Option.none, Option.none⟩
        (some (some (str " AUTO ")))).serialOverride
      (some (str "emulator-5554")) =
      ⟨Option.none, some ReqSource.override⟩ := by
  have h := claim_C9 ⟨Option.none, Option.none⟩ (str " AUTO ") (by decide)
  exact ⟨h.1, h.2.1 (some (str "emulator-5554"))⟩

/-! ## Claim C3: parse length and index fallback -/

/-- The parse loop yields one element per tag. -/
theorem parseLoop_length : ∀ (tags : List Str) (k : Nat),
    (parseLoop tags k).length = tags.length := by
  intro tags
  induction tags with
  | nil => intro k; rfl
  | cons t ts ih => intro k; simp [parseLoop, ih]

/-- The `i`-th parsed element is built from the `i`-th tag with fallback
counter `k + i`: the counter advances once per element seen,
unconditionally. -/
theorem parseLoop_get : ∀ (tags : List Str) (k i : Nat)
    (h1 : i < (parseLoop tags k).length) (h2 : i < tags.length),
    (parseLoop tags k).get ⟨i, h1⟩ = mkElement (tags.get ⟨i, h2⟩) (k + i) := by
  intro tags
  induction tags with
  | nil => intro k i h1 h2; simp at h2
  | cons t ts ih =>
    intro k i h1 h2
    cases i with
    | zero => rfl
    | succ j =>
      have hj1 : j < (parseLoop ts (k + 1)).length := by
        have := h1
        simp [parseLoop] at this
        simpa [parseLoop_length] using this
      have hj2 : j < ts.length := by
        simpa using Nat.lt_of_succ_lt_succ h2
      have := ih (k + 1) j hj1 hj2
      calc (parseLoop (t :: ts) k).get ⟨j + 1, h1⟩
          = (parseLoop ts (k + 1)).get ⟨j, hj1⟩ := rfl
        _ = mkElement (ts.get ⟨j, hj2⟩) (k + 1 + j) := this
        _ = mkElement ((t :: ts).get ⟨j + 1, h2⟩) (k + (j + 1)) := by
            simp [Nat.add_comm, Nat.add_assoc, Nat.add_left_comm]

/-- Claim C3: a dump with `N` well-formed element tags parses to exactly
`N` elements in document order, and each element's `index` is the tag's
own parseable `index` attribute when present, and otherwise its 0-based
position of encounter — the fallback counter advances once per element
and never resets, independent of explicit indices elsewhere. -/
theorem claim_C3 (xml : Str) :
    (parseUIElements xml).length = (findNodeTags xml).length ∧
    ∀ (i : Nat) (h1 : i < (parseUIElements xml).length)
      (h2 : i < (findNodeTags xml).length),
      ((parseUIElements xml).get ⟨i, h1⟩).index =
        (parsedIndexOf ((findNodeTags xml).get ⟨i, h2⟩)).getD (i : Int) := by
  constructor
  · exact parseLoop_length (findNodeTags xml) 0
  · intro i h1 h2
    have hg : (parseUIElements xml).get ⟨i, h1⟩ =
        mkElement ((findNodeTags xml).get ⟨i, h2⟩) (0 + i) :=
      parseLoop_get (findNodeTags xml) 0 i h1 h2
    rw [hg]
    simp [mkElement]

/-- Witness for the hypotheses of `claim_C3`: a dump whose first tag has
an explicit `index="7"` and whose second has none — the second element's
index is its position of encounter, `1`, not `0`. -/
theorem claim_C3_witness :
    (parseUIElements (str "<node index=\"7\"/><node/>")).length =
      (findNodeTags (str "<node index=\"7\"/><node/>")).length ∧
    ((parseUIElements (str "<node index=\"7\"/><node/>")).get ⟨1, by decide⟩).index =
      (parsedIndexOf
        ((findNodeTags (str "<node index=\"7\"/><node/>")).get ⟨1, by decide⟩)).getD
        (1 : Int) :=
  ⟨(claim_C3 (str "<node index=\"7\"/><node/>")).1,
   (claim_C3 (str "<node index=\"7\"/><node/>")).2 1 (by decide) (by decide)⟩

/-! ## Claim C4: bounds parsing and center derivation -/

theorem digitChar_isDigit (m : Nat) (h : m < 10) : (Char.ofNat (48 + m)).isDigit = true := by
  interval_cases m <;> decide

theorem digitChar_toNat (m : Nat) (h : m < 10) : (Char.ofNat (48 + m)).toNat = 48 + m := by
  interval_cases m <;> decide

theorem decVal_append_singleton (xs : Str) (c : Char) :
    decVal (xs ++ [c]) = 10 * decVal xs + (c.toNat - 48) := by
  simp [decVal, List.foldl_append]

/-- The decimal renderer emits a nonempty all-digit string whose decimal
value is the rendered number. -/
theorem natStrFuel_spec : ∀ (f n : Nat), n < f →
    natStrFuel f n ≠ [] ∧ (∀ c ∈ natStrFuel f n, c.isDigit) ∧ decVal (natStrFuel f n) = n := by
  intro f
  induction f with
  | zero => intro n h; exact absurd h (Nat.not_lt_zero n)
  | succ f ih =>
    intro n h
    by_cases h10 : n < 10
    · refine ⟨by simp [natStrFuel, h10], ?_, ?_⟩
      · intro c hc
        simp [natStrFuel, h10] at hc
        subst hc
        exact digitChar_isDigit n h10
      · have ht := digitChar_toNat n h10
        simp [natStrFuel, h10, decVal, ht]
    · have hdiv : n / 10 < f := by
        have h1 : n / 10 < n := Nat.div_lt_self (by omega) (by omega)
        omega
      obtain ⟨hne, hdig, hval⟩ := ih (n / 10) hdiv
      have hmod : n % 10 < 10 := Nat.mod_lt _ (by omega)
      have hstep : natStrFuel (f + 1) n =
          natStrFuel f (n / 10) ++ [Char.ofNat (48 + n % 10)] := by
        simp [natStrFuel, h10]
      refine ⟨?_, ?_, ?_⟩
      · rw [hstep]
        simp
      · intro c hc
        rw [hstep] at hc
        rcases List.mem_append.mp hc with hc | hc
        · exact hdig c hc
        · simp at hc
          subst hc
          exact digitChar_isDigit _ hmod
      · rw [hstep, decVal_append_singleton, hval, digitChar_toNat _ hmod]
        omega

theorem natStr_spec (n : Nat) :
    natStr n ≠ [] ∧ (∀ c ∈ natStr n, c.isDigit) ∧ decVal (natStr n) = n :=
  natStrFuel_spec (n + 1) n (Nat.lt_succ_self n)

/-- A maximal digit run over an all-digit prefix followed by a
non-digit-headed remainder is exactly the prefix. -/
theorem takeWhile_digits_append (xs rest : Str) (hdig : ∀ c ∈ xs, c.isDigit)
    (hrest : rest.takeWhile Char.isDigit = []) :
    (xs ++ rest).takeWhile Char.isDigit = xs := by
  rw [List.takeWhile_append_of_pos hdig, hrest, List.append_nil]

/-- `-?\d+` on an all-digit nonempty prefix parses the prefix. -/
theorem parseSigned_digits (xs rest : Str) (hne : xs ≠ [])
    (hdig : ∀ c ∈ xs, c.isDigit) (hrest : rest.takeWhile Char.isDigit = []) :
    parseSigned (xs ++ rest) = some ((decVal xs : Int), xs.length) := by
  obtain ⟨c, cs, rfl⟩ := List.exists_cons_of_ne_nil hne
  have hcdig : c.isDigit := hdig c (by simp)
  have hcne : c ≠ '-' := by
    intro hcontra
    subst hcontra
    exact absurd hcdig (by decide)
  have htake : ((c :: cs) ++ rest).takeWhile Char.isDigit = c :: cs :=
    takeWhile_digits_append (c :: cs) rest hdig hrest
  have hemp : (c :: cs).isEmpty = false := rfl
  rw [parseSigned.eq_def]
  split
  · next tl heq =>
    rw [List.cons_append] at heq
    exact absurd (List.head_eq_of_cons_eq heq) hcne
  · next s hno =>
    simp only [htake, hemp, Bool.false_eq_true, if_false]

/-- `-?\d+` parses the canonical rendering of any signed integer. -/
theorem parseSigned_render (i : Int) (rest : Str)
    (hrest : rest.takeWhile Char.isDigit = []) :
    parseSigned (intStr i ++ rest) = some (i, (intStr i).length) := by
  obtain ⟨hne, hdig, hval⟩ := natStr_spec i.natAbs
  by_cases hneg : i < 0
  · have hi : intStr i = '-' :: natStr i.natAbs := by
      simp [intStr, hneg]
    rw [hi]
    have harm : parseSigned ('-' :: (natStr i.natAbs ++ rest)) =
        (if ((natStr i.natAbs ++ rest).takeWhile Char.isDigit).isEmpty then none
         else some (-(decVal ((natStr i.natAbs ++ rest).takeWhile Char.isDigit) : Int),
           1 + ((natStr i.natAbs ++ rest).takeWhile Char.isDigit).length)) := by
      simp [parseSigned]
    rw [List.cons_append, harm, takeWhile_digits_append _ _ hdig hrest]
    have hemp : (natStr i.natAbs).isEmpty = false := by
      cases hn : natStr i.natAbs with
      | nil => exact absurd hn hne
      | cons a t => rfl
    rw [hemp]
    simp only [Bool.false_eq_true, if_false, hval]
    have habs : ((i.natAbs : Int)) = -i := Int.ofNat_natAbs_of_nonpos (le_of_lt hneg)
    rw [habs]
    simp [Nat.add_comm]
  · have hi : intStr i = natStr i.natAbs := by
      simp [intStr, hneg]
    rw [hi, parseSigned_digits _ _ hne hdig hrest, hval]
    have habs : ((i.natAbs : Int)) = i := Int.natAbs_of_nonneg (le_of_not_lt hneg)
    rw [habs]

/-- The bounds pattern matches the canonical rendering at its start. -/
theorem tryBoundsAt_render (a b c d : Int) :
    tryBoundsAt (renderBounds a b c d) = some ⟨a, b, c, d⟩ := by
  have h1 := parseSigned_render a
    (',' :: (intStr b ++ ']' :: '[' :: (intStr c ++ ',' :: (intStr d ++ [']'])))) rfl
  have h2 := parseSigned_render b
    (']' :: '[' :: (intStr c ++ ',' :: (intStr d ++ [']']))) rfl
  have h3 := parseSigned_render c (',' :: (intStr d ++ [']'])) rfl
  have h4 := parseSigned_render d [']'] rfl
  simp [renderBounds, tryBoundsAt, expectChar, h1, h2, h3, h4, List.drop_left]

/-- The scanner finds the match at position 0 of the canonical
rendering. -/
theorem parseBoundsStr_render (a b c d : Int) :
    parseBoundsStr (renderBounds a b c d) = some ⟨a, b, c, d⟩ := by
  have h := tryBoundsAt_render a b c d
  rw [show renderBounds a b c d =
    '[' :: (intStr a ++ ',' :: intStr b ++ ']' :: '[' :: intStr c ++ ',' :: intStr d ++ [']'])
    from rfl] at h ⊢
  simp only [parseBoundsStr, h]

/-- Claim C4: a `bounds` attribute of the form `[a,b][c,d]` with signed
integers parses to exactly those bounds, whose center is the half-up
rounded midpoint (`Math.round`, i.e. `round` on `ℚ`); an absent attribute
or one where the pattern matches nowhere falls back to the zero
rectangle.  The spec's concrete scenarios `[x,y][z,w]` (malformed) and
`[10,20][110,220]` (center `{60,120}`) are included. -/
theorem claim_C4 :
    (∀ a b c d : Int, parseBounds (some (renderBounds a b c d)) = some ⟨a, b, c, d⟩) ∧
    (∀ a b c d : Int, centerFromBounds ⟨a, b, c, d⟩ =
      ⟨round (((a + c : Int) : ℚ) / 2), round (((b + d : Int) : ℚ) / 2)⟩) ∧
    parseBounds Option.none = Option.none ∧
    (∀ v : Str, parseBoundsStr v = Option.none →
      (parseBounds (some v)).getD defaultBounds = defaultBounds) ∧
    (parseBounds (some (str "[x,y][z,w]"))).getD defaultBounds = defaultBounds ∧
    centerFromBounds ⟨10, 20, 110, 220⟩ = ⟨60, 120⟩ := by
  refine ⟨?_, ?_, rfl, ?_, by decide, by decide⟩
  · intro a b c d
    have hne : (renderBounds a b c d).isEmpty = false := rfl
    simp only [parseBounds, hne, Bool.false_eq_true, if_false]
    exact parseBoundsStr_render a b c d
  · intro a b c d
    simp only [centerFromBounds]
    exact congrArg₂ Center.mk (round_intCast_div_two (a + c)).symm
      (round_intCast_div_two (b + d)).symm
  · intro v hv
    cases hemp : v.isEmpty <;> simp [parseBounds, hemp, hv]

/-- Witness for the hypothesis of `claim_C4`: a string where the pattern
matches nowhere falls back to the zero rectangle. -/
theorem claim_C4_witness :
    (parseBounds (some (str "[x,"))).getD defaultBounds = defaultBounds :=
  claim_C4.2.2.2.1 (str "[x,") (by decide)

end ExpoAndroid

